import Mathlib

/-!
Verification of the framed TCP socket client
(`nautilus_core/network/src/socket.rs`).

The development is a shallow embedding of the client: pure fragments of the
Rust source (frame splitting, branch structure of the controller loop, the
gating logic of `send_bytes`, the polling loop of `close`, the writer-cell
bookkeeping of `connect`/`reconnect`) are translated into executable Lean
functions, and the claimed properties are proved about those functions.
Bytes are modelled as `Nat`, byte buffers as `List Nat`; timing is
discretised into the polling/tick steps the source itself uses.
-/

/-! ### Connection state constants (socket.rs lines 54-56) -/

def CONNECTION_ACTIVE : Nat := 0

def CONNECTION_RECONNECTING : Nat := 1

def CONNECTION_CLOSED : Nat := 2

/-! ### Timing constants visible in the source -/

/-- Controller tick: `check_interval = Duration::from_millis(10)`. -/
def CHECK_INTERVAL_MS : Nat := 10

/-- Retry back-off: `retry_interval = Duration::from_millis(1000)`. -/
def RETRY_INTERVAL_MS : Nat := 1000

/-- `close` drain budget: `timeout(Duration::from_secs(5), ...)`. -/
def CLOSE_TIMEOUT_MS : Nat := 5000

/-- `close` poll: `sleep(Duration::from_millis(10))`. -/
def CLOSE_POLL_MS : Nat := 10

/-- Number of `is_closed` polls that fit in the `close` budget. -/
def closeMaxPolls : Nat := CLOSE_TIMEOUT_MS / CLOSE_POLL_MS

/-- `send_bytes` wait budget: `timeout = Duration::from_secs(2)`. -/
def SEND_TIMEOUT_MS : Nat := 2000

/-- `send_bytes` poll: `check_interval = Duration::from_millis(1)`. -/
def SEND_POLL_MS : Nat := 1

/-- Number of `is_active` polls that fit in the `send_bytes` budget. -/
def sendMaxPolls : Nat := SEND_TIMEOUT_MS / SEND_POLL_MS

/-! ### Configuration (socket.rs `SocketConfig`, lines 64-79).

The `handler` (an opaque Python callable) and the TLS `mode` play no role in
any claim about control flow, so they are left out of the record; the handler
is modelled later as an oracle `List Nat → Bool` (ok / error) where needed. -/

structure SocketConfig where
  url : String
  suffix : List Nat
  heartbeat : Option (Nat × List Nat)
  reconnect_timeout_secs : Option Nat
  max_reconnection_tries : Option Nat

/-! ### Frame search (socket.rs lines 279-283)

`buf.windows(suffix.len()).enumerate().find(|(_, pair)| pair.eq(&suffix))`
returns the earliest index `i` such that the `suffix.len()`-byte slice of
`buf` starting at `i` equals `suffix`.  `findSuffix` computes the same index
structurally: a window of length `|suffix|` starting at `i` exists and equals
`suffix` iff `suffix` is a prefix of `buf.drop i`.  (`windows(0)` panics in
Rust; that case is modelled separately by `windowsRs`/`readDataStep`.) -/

def findSuffix (suffix : List Nat) : List Nat → Option Nat
  | [] => none
  | b :: bs =>
    if suffix <+: (b :: bs) then some 0
    else (findSuffix suffix bs).map (· + 1)

/-- Rust `slice::windows`: panics (`none`) when the window size is `0`,
otherwise yields all contiguous windows of the given size. -/
def windowsRs (size : Nat) (l : List Nat) : Option (List (List Nat)) :=
  if size = 0 then none
  else some ((List.range (l.length + 1 - size)).map fun i => (l.drop i).take size)

/-! ### Frame draining loop (socket.rs lines 279-293)

```text
while let Some((i, _)) = buf.windows(suffix.len()).enumerate()
        .find(|(_, pair)| pair.eq(&suffix)) {
    let mut data: Vec<u8> = buf.drain(0..i + suffix.len()).collect();
    data.truncate(data.len() - suffix.len());
    handler(data);           // error case handled by drainLoopH below
}
```

The loop removes `buf[0 .. i + |suffix|]` from the buffer front and hands the
frame `buf[0 .. i]` (suffix stripped) to the handler.  The recursion is fuelled
by the buffer length: each iteration removes at least `|suffix| ≥ 1` bytes, so
`|buf| + 1` units of fuel always suffice. -/

def drainLoop (suffix : List Nat) : Nat → List Nat → List (List Nat) × List Nat
  | 0, buf => ([], buf)
  | fuel + 1, buf =>
    match findSuffix suffix buf with
    | none => ([], buf)
    | some i =>
      let res := drainLoop suffix fuel (buf.drop (i + suffix.length))
      (buf.take i :: res.1, res.2)

/-- All frames extracted from `buf` by the inner `while` loop, together with
the remaining buffered bytes. -/
def drainFrames (suffix buf : List Nat) : List (List Nat) × List Nat :=
  drainLoop suffix (buf.length + 1) buf

/-- `frames`, each re-terminated with `suffix`, concatenated. -/
def joinFrames (frames : List (List Nat)) (suffix : List Nat) : List Nat :=
  (frames.map fun f => f ++ suffix).flatten

/-- The reader task's outer loop restricted to a sequence of successful reads:
the leftover bytes of each drain are kept in the accumulated buffer and the
next chunk is appended to them (socket.rs lines 260-296: `buf` lives across
iterations of the outer `loop`). -/
def processChunks (suffix : List Nat) (carry : List Nat) : List (List Nat) → List (List Nat) × List Nat
  | [] => ([], carry)
  | c :: cs =>
    let d := drainFrames suffix (carry ++ c)
    let rest := processChunks suffix d.2 cs
    (d.1 ++ rest.1, rest.2)

/-! ### Frame draining with a fallible handler (socket.rs lines 284-293)

The frame is drained from the buffer *before* the handler runs; when the
handler returns an error the `while` loop is broken (`break`), leaving the
already-shortened buffer in place.  The third component records whether a
handler error occurred in this batch. -/

def drainLoopH (ok : List Nat → Bool) (suffix : List Nat) : Nat → List Nat → List (List Nat) × List Nat × Bool
  | 0, buf => ([], buf, false)
  | fuel + 1, buf =>
    match findSuffix suffix buf with
    | none => ([], buf, false)
    | some i =>
      let frame := buf.take i
      let rest := buf.drop (i + suffix.length)
      if ok frame then
        let res := drainLoopH ok suffix fuel rest
        (frame :: res.1, res.2)
      else ([frame], rest, true)

/-- One full inner-loop batch with handler oracle `ok`. -/
def drainFramesH (ok : List Nat → Bool) (suffix buf : List Nat) : List (List Nat) × List Nat × Bool :=
  drainLoopH ok suffix (buf.length + 1) buf

/-- Outcome of one `reader.read_buf(&mut buf).await` (socket.rs line 263):
`chunk c` is `Ok(n)` with `n > 0` delivering bytes `c`, `eof` is `Ok(0)`,
`rerr` is `Err(e)`. -/
inductive ReadEv
  | chunk (c : List Nat)
  | eof
  | rerr
deriving DecidableEq

/-- Does this read outcome terminate the reader task?  (socket.rs lines
265-272: both `Ok(0)` and `Err` hit `break` in the outer loop.) -/
def isTermEv : ReadEv → Bool
  | ReadEv.chunk _ => false
  | ReadEv.eof => true
  | ReadEv.rerr => true

/-- The reader task body over a schedule of read outcomes: frames delivered,
final buffer, and whether the task has terminated.  An exhausted schedule
means the task is still running (awaiting the next read). -/
def readerRun (ok : List Nat → Bool) (suffix : List Nat) : List Nat → List ReadEv → List (List Nat) × List Nat × Bool
  | buf, [] => ([], buf, false)
  | buf, ReadEv.eof :: _ => ([], buf, true)
  | buf, ReadEv.rerr :: _ => ([], buf, true)
  | buf, ReadEv.chunk c :: rest =>
    let d := drainFramesH ok suffix (buf ++ c)
    let r := readerRun ok suffix d.2.1 rest
    (d.1 ++ r.1, r.2)

/-! ### `connect_url` (socket.rs lines 111-152)

`connect_url` destructures the config, connects the transport, wraps the
writer, sets state `ACTIVE`, spawns the read task with `suffix.clone()`, and
optionally spawns the heartbeat task.  No field of the config is validated.
The transport outcome is an oracle boolean. -/

structure InnerInit where
  suffix : List Nat
  connectionState : Nat
  heartbeatSpawned : Bool
  reconnectTimeoutSecs : Nat
deriving DecidableEq

def connect_url (cfg : SocketConfig) (transportOk : Bool) : Option InnerInit :=
  if transportOk then
    some { suffix := cfg.suffix
           connectionState := CONNECTION_ACTIVE
           heartbeatSpawned := cfg.heartbeat.isSome
           reconnectTimeoutSecs := cfg.reconnect_timeout_secs.getD 30 }
  else none

/-- One `Ok(bytes)` iteration of the read task (socket.rs lines 274-294): the
chunk is appended to the accumulated buffer and the inner loop evaluates
`buf.windows(suffix.len())`, which panics (`none`) when the suffix is empty;
otherwise the buffer is drained as usual. -/
def readDataStep (suffix buf chunk : List Nat) : Option (List (List Nat) × List Nat) :=
  match windowsRs suffix.length (buf ++ chunk) with
  | none => none
  | some _ => some (drainFrames suffix (buf ++ chunk))

/-- A configuration whose suffix is empty; `connect_url` performs no
validation of it. -/
def cfgEmptySuffix : SocketConfig :=
  { url := "127.0.0.1:9000", suffix := [], heartbeat := none,
    reconnect_timeout_secs := none, max_reconnection_tries := none }

/-! ### Controller task (socket.rs lines 546-636)

Each tick the controller reads `(disconnect_mode, inner.is_alive())` and acts:

```text
(false, true)  => no-op
(false, false) => reconnect: on Ok reset retry counter and invoke
                  post_reconnection; on Err increment, break when the
                  counter reaches max_reconnection_tries (if set), else
                  sleep retry_interval
(true, true)   => shutdown inner; invoke post_disconnection; break
(true, false)  => shutdown inner (cleanup); continue
on loop exit   => connection_state.store(CONNECTION_CLOSED)
```

A `TickObs` is the environment of one tick; `reconnectOk` is consulted only
in the `(false, false)` arm.  The run emits the sequence of observable events
(state stores, callback invocations, sleeps, shutdowns) and reports whether
the loop has exited; a `storeClosed` event is emitted exactly when the loop
body executes `break`, mirroring the single store after the `loop`.  On a
failed reconnect the attempt has at least stored `RECONNECTING` (socket.rs
line 178) before the transport error surfaces. -/

structure TickObs where
  disconnect : Bool
  alive : Bool
  reconnectOk : Bool
deriving DecidableEq

inductive CtrlEv
  | storeReconnecting
  | storeActive
  | storeClosed
  | cbReconnection
  | cbDisconnection
  | sleepRetry
  | shutdownCleanup
  | shutdownDisconnect
deriving DecidableEq

def controllerRun (maxTries : Option Nat) : Nat → List TickObs → List CtrlEv × Bool
  | _, [] => ([], false)
  | retry, obs :: ts =>
    match obs.disconnect, obs.alive with
    | true, true =>
      ([CtrlEv.shutdownDisconnect, CtrlEv.cbDisconnection, CtrlEv.storeClosed], true)
    | true, false =>
      let r := controllerRun maxTries retry ts
      (CtrlEv.shutdownCleanup :: r.1, r.2)
    | false, true => controllerRun maxTries retry ts
    | false, false =>
      if obs.reconnectOk then
        let r := controllerRun maxTries 0 ts
        (CtrlEv.storeReconnecting :: CtrlEv.storeActive :: CtrlEv.cbReconnection :: r.1, r.2)
      else
        match maxTries with
        | some m =>
          if m ≤ retry + 1 then ([CtrlEv.storeReconnecting, CtrlEv.storeClosed], true)
          else
            let r := controllerRun maxTries (retry + 1) ts
            (CtrlEv.storeReconnecting :: CtrlEv.sleepRetry :: r.1, r.2)
        | none =>
          let r := controllerRun maxTries (retry + 1) ts
          (CtrlEv.storeReconnecting :: CtrlEv.sleepRetry :: r.1, r.2)

/-- Tick observation: a failing reconnect attempt. -/
def failObs : TickObs := ⟨false, false, false⟩

/-- Tick observation: a succeeding reconnect attempt. -/
def succObs : TickObs := ⟨false, false, true⟩

/-- Tick observation: disconnect flag set while the reader task is already
finished.  With `disconnect = true` the controller never calls `reconnect`,
so a finished read task stays finished and this observation repeats. -/
def deadObs : TickObs := ⟨true, false, false⟩

/-! ### Client facade flags and `close` (socket.rs lines 396-509) -/

structure ClientFlags where
  disconnectMode : Bool
  connectionState : Nat
deriving DecidableEq

/-- The only mutation `close` performs on the shared client flags:
`self.disconnect_mode.store(true, Ordering::SeqCst)` (socket.rs line 488).
The connection-state atomic is not written by `close`. -/
def closeEffect (f : ClientFlags) : ClientFlags :=
  { f with disconnectMode := true }

structure CloseResult where
  disconnectStored : Bool
  aborted : Bool
  timedOut : Bool
deriving DecidableEq

/-- `close` (socket.rs lines 487-509): store the disconnect flag, then inside
a 5 s timeout poll `is_closed()` every 10 ms; only after the polling loop
observes `CLOSED` is `controller_task.abort()` reached (guarded by
`!controller_task.is_finished()`).  If the timeout fires first, the future is
dropped before the abort statement and only an error is logged.
`closedAt k` is the value of `is_closed()` at the `k`-th poll and
`ctrlFinished` the value of `controller_task.is_finished()` at the abort
check. -/
def closeRun (closedAt : Nat → Bool) (ctrlFinished : Bool) : CloseResult :=
  match (List.range closeMaxPolls).find? closedAt with
  | some _ => { disconnectStored := true, aborted := !ctrlFinished, timedOut := false }
  | none => { disconnectStored := true, aborted := false, timedOut := true }

/-! ### `send_bytes` (socket.rs lines 511-544) -/

inductive SendOutcome
  | ok
  | errNotConnected
  | errTimedOut
  | errIo (code : Nat)
deriving DecidableEq

/-- Environment of one `send_bytes` call: `closed` is `is_closed()` at entry,
`activeAt k` the value of the `k`-th `is_active()` check, `dataRes` /
`suffixRes` the outcomes of the two `write_all` calls (`none` = success,
`some e` = I/O error `e`). -/
structure SendEnv where
  closed : Bool
  activeAt : Nat → Bool
  dataRes : Option Nat
  suffixRes : Option Nat

/-- The write phase of `send_bytes` under the writer mutex:
`writer.write_all(data).await?; writer.write_all(&self.suffix).await`.
Returns the outcome and the list of performed writes in order. -/
def writePhase (env : SendEnv) (data suffix : List Nat) : SendOutcome × List (List Nat) :=
  match env.dataRes with
  | some e => (SendOutcome.errIo e, [data])
  | none =>
    match env.suffixRes with
    | some e => (SendOutcome.errIo e, [data, suffix])
    | none => (SendOutcome.ok, [data, suffix])

/-- `send_bytes`: fail `NotConnected` if closed (no I/O); otherwise wait for
`is_active()` polling every 1 ms within the 2 s budget, failing `TimedOut`
on expiry (no I/O); then perform the two writes. -/
def send_bytes (env : SendEnv) (data suffix : List Nat) : SendOutcome × List (List Nat) :=
  if env.closed then (SendOutcome.errNotConnected, [])
  else
    match (List.range (sendMaxPolls + 1)).find? env.activeAt with
    | none => (SendOutcome.errTimedOut, [])
    | some _ => writePhase env data suffix

/-! ### Writer-cell bookkeeping across `connect` and `reconnect`

`type SharedTcpWriter = Arc<Mutex<WriteHalf<...>>>`.  The model tracks every
allocated `Arc<Mutex<_>>` cell by address; `cellConn a` is the id of the
underlying connection whose write half the cell at address `a` holds.

`connect` (socket.rs lines 405-440): `connect_url` allocates a fresh cell for
the first connection (line 124) and the facade stores `inner.writer.clone()`
(line 414) — the *same* address.

`reconnect` (socket.rs lines 200-203):

```text
let (reader, writer) = Self::tls_connect_with_server(url, *mode).await?;
let writer = Arc::new(Mutex::new(writer));   // fresh cell!
self.writer = writer.clone();                // rebinds the inner field only
```

The old cell and every clone of it (in particular the facade's) are left
untouched. -/

structure WriterModel where
  heapNext : Nat
  cellConn : Nat → Nat
  innerWriter : Nat
  facadeWriter : Nat

/-- State after `SocketClient::connect` establishing connection `conn0`. -/
def connectWriters (conn0 : Nat) : WriterModel :=
  { heapNext := 1
    cellConn := fun a => if a = 0 then conn0 else 0
    innerWriter := 0
    facadeWriter := 0 }

/-- Effect of a successful `reconnect` to connection `newConn` on the writer
cells (socket.rs lines 201-203). -/
def reconnectSwap (m : WriterModel) (newConn : Nat) : WriterModel :=
  { heapNext := m.heapNext + 1
    cellConn := fun a => if a = m.heapNext then newConn else m.cellConn a
    innerWriter := m.heapNext
    facadeWriter := m.facadeWriter }

/-- The connection written to by `send_bytes`, which locks the facade's
writer handle `self.writer` (socket.rs line 541). -/
def sendTargetConn (m : WriterModel) : Nat := m.cellConn m.facadeWriter

/-- The connection held by the inner session's current writer handle. -/
def innerTargetConn (m : WriterModel) : Nat := m.cellConn m.innerWriter

/-! ### Fine-grained event order of a successful `reconnect`
(socket.rs lines 171-228) -/

inductive RecEv
  | lockAcquired
  | storeReconnecting
  | shutdownOldTasks
  | transportConnect
  | swapWriter
  | spawnReadTask
  | spawnHeartbeatTask
  | lockReleased
  | storeActive
deriving DecidableEq

/-- The successful `reconnect` path in source order: take the reconnection
lock, store `RECONNECTING`, shut down the old tasks, connect, swap the writer
field, spawn the new tasks, `drop(state_guard)` (line 223), and only then
store `ACTIVE` (lines 224-225). -/
def reconnectSuccessTrace : List RecEv :=
  [RecEv.lockAcquired, RecEv.storeReconnecting, RecEv.shutdownOldTasks,
   RecEv.transportConnect, RecEv.swapWriter, RecEv.spawnReadTask,
   RecEv.spawnHeartbeatTask, RecEv.lockReleased, RecEv.storeActive]

structure RecPoint where
  mutexHeld : Bool
  connState : Nat
deriving DecidableEq

def recStep (p : RecPoint) : RecEv → RecPoint
  | RecEv.lockAcquired => { p with mutexHeld := true }
  | RecEv.storeReconnecting => { p with connState := CONNECTION_RECONNECTING }
  | RecEv.lockReleased => { p with mutexHeld := false }
  | RecEv.storeActive => { p with connState := CONNECTION_ACTIVE }
  | _ => p

/-- Lock/state configuration reached after the first `k` steps of a
successful `reconnect` (entered with the lock free and state `ACTIVE`). -/
def recPointAt (k : Nat) : RecPoint :=
  (reconnectSuccessTrace.take k).foldl recStep ⟨false, CONNECTION_ACTIVE⟩

/-! ## Helper lemmas about `findSuffix` -/

theorem findSuffix_nil (s : List Nat) : findSuffix s [] = none := rfl

theorem findSuffix_some_pre (s : List Nat) :
    ∀ (buf : List Nat) (i : Nat), findSuffix s buf = some i → s <+: buf.drop i := by
  intro buf
  induction buf with
  | nil => intro i h; simp [findSuffix] at h
  | cons b bs ih =>
    intro i h
    by_cases hp : s <+: (b :: bs)
    · simp [findSuffix, hp] at h
      subst h
      simpa using hp
    · simp [findSuffix, hp] at h
      obtain ⟨j, hj, rfl⟩ := h
      rw [List.drop_succ_cons]
      exact ih j hj

theorem findSuffix_min (s : List Nat) :
    ∀ (buf : List Nat) (i : Nat), findSuffix s buf = some i →
      ∀ j, j < i → ¬ s <+: buf.drop j := by
  intro buf
  induction buf with
  | nil => intro i h; simp [findSuffix] at h
  | cons b bs ih =>
    intro i h j hj
    by_cases hp : s <+: (b :: bs)
    · simp [findSuffix, hp] at h
      omega
    · simp [findSuffix, hp] at h
      obtain ⟨j', hj', rfl⟩ := h
      cases j with
      | zero => simpa using hp
      | succ t =>
        rw [List.drop_succ_cons]
        exact ih j' hj' t (by omega)

theorem findSuffix_cons_pos (s : List Nat) (b : Nat) (bs : List Nat)
    (hp : s <+: b :: bs) : findSuffix s (b :: bs) = some 0 := by
  simp [findSuffix, hp]

theorem findSuffix_cons_neg (s : List Nat) (b : Nat) (bs : List Nat)
    (hp : ¬ s <+: b :: bs) :
    findSuffix s (b :: bs) = (findSuffix s bs).map (· + 1) := by
  simp [findSuffix, hp]

theorem findSuffix_none_iff (s : List Nat) (hs : s ≠ []) :
    ∀ buf : List Nat, findSuffix s buf = none ↔ ∀ j, ¬ s <+: buf.drop j := by
  intro buf
  induction buf with
  | nil =>
    refine iff_of_true rfl ?_
    intro j hpre
    rw [List.drop_nil] at hpre
    rw [ List.prefix_nil] at hpre
    exact hs hpre
  | cons b bs ih =>
    by_cases hp : s <+: (b :: bs)
    · refine iff_of_false ?_ ?_
      · rw [findSuffix_cons_pos s b bs hp]
        simp
      · intro hall
        exact hall 0 (by simpa using hp)
    · rw [findSuffix_cons_neg s b bs hp]
      constructor
      · intro hnone j
        have hbs : findSuffix s bs = none := by
          cases hfs : findSuffix s bs with
          | none => rfl
          | some v => rw [hfs] at hnone; simp at hnone
        cases j with
        | zero => simpa using hp
        | succ t =>
          rw [List.drop_succ_cons]
          exact (ih.mp hbs) t
      · intro hall
        have hbs : findSuffix s bs = none := by
          refine ih.mpr ?_
          intro t
          have := hall (t + 1)
          rwa [List.drop_succ_cons] at this
        rw [hbs]
        rfl

theorem findSuffix_len (s : List Nat) (hs : s ≠ []) (buf : List Nat) (i : Nat)
    (h : findSuffix s buf = some i) : i + s.length ≤ buf.length := by
  have h1 := (findSuffix_some_pre s buf i h).length_le
  rw [List.length_drop] at h1
  have h2 : 0 < s.length := List.length_pos.mpr hs
  omega

theorem findSuffix_zero (s : List Nat) (hs : s ≠ []) (buf : List Nat)
    (h : s <+: buf) : findSuffix s buf = some 0 := by
  cases buf with
  | nil =>
    rw [ List.prefix_nil] at h
    exact absurd h hs
  | cons b bs => exact findSuffix_cons_pos s b bs h

theorem findSuffix_decompose (s : List Nat) (buf : List Nat) (i : Nat)
    (h : findSuffix s buf = some i) :
    buf = buf.take i ++ s ++ buf.drop (i + s.length) := by
  obtain ⟨t, ht⟩ := findSuffix_some_pre s buf i h
  have ht' : t = buf.drop (i + s.length) := by
    have h1 : (buf.drop i).drop s.length = t := by
      rw [← ht, List.drop_left]
    rw [List.drop_drop] at h1
    exact h1.symm
  conv_lhs => rw [← List.take_append_drop i buf, ← ht, ht']
  simp [List.append_assoc]

theorem prefix_append_left_iff (s t u : List Nat) (h : s.length ≤ t.length) :
    s <+: t ++ u ↔ s <+: t := by
  constructor
  · intro hp
    rw [ List.prefix_iff_eq_take] at hp ⊢
    rwa [List.take_append_eq_append_take, Nat.sub_eq_zero_of_le h, List.take_zero,
      List.append_nil] at hp
  · intro hp
    exact hp.trans ( List.prefix_append t u)

theorem findSuffix_append (s : List Nat) (hs : s ≠ []) :
    ∀ (b1 b2 : List Nat) (i : Nat), findSuffix s b1 = some i →
      findSuffix s (b1 ++ b2) = some i := by
  intro b1
  induction b1 with
  | nil => intro b2 i h; exact absurd h (by simp [findSuffix])
  | cons b bs ih =>
    intro b2 i h
    by_cases hp : s <+: (b :: bs)
    · rw [findSuffix_cons_pos s b bs hp] at h
      have hp2 : s <+: (b :: bs) ++ b2 := hp.trans ( List.prefix_append _ _)
      rw [List.cons_append] at hp2
      rw [List.cons_append, findSuffix_cons_pos s b (bs ++ b2) hp2]
      exact h
    · rw [findSuffix_cons_neg s b bs hp] at h
      cases hfs : findSuffix s bs with
      | none => rw [hfs] at h; simp at h
      | some j =>
        rw [hfs] at h
        simp at h
        have hlen : s.length ≤ (b :: bs).length := by
          have := findSuffix_len s hs bs j hfs
          simp [List.length_cons]
          omega
        have hp2 : ¬ s <+: (b :: bs) ++ b2 := by
          rw [prefix_append_left_iff s (b :: bs) b2 hlen]
          exact hp
        rw [List.cons_append] at hp2
        rw [List.cons_append, findSuffix_cons_neg s b (bs ++ b2) hp2,
          ih b2 j hfs]
        simpa using h

/-! ## Helper lemmas about `drainFrames` -/

theorem drainLoop_fuel (s : List Nat) (hs : s ≠ []) :
    ∀ (n : Nat) (buf : List Nat) (f1 f2 : Nat), buf.length ≤ n → n < f1 → n < f2 →
      drainLoop s f1 buf = drainLoop s f2 buf := by
  intro n
  induction n using Nat.strong_induction_on with
  | _ n ih =>
    intro buf f1 f2 hlen h1 h2
    obtain ⟨g1, rfl⟩ : ∃ g, f1 = g + 1 := ⟨f1 - 1, by omega⟩
    obtain ⟨g2, rfl⟩ : ∃ g, f2 = g + 1 := ⟨f2 - 1, by omega⟩
    cases hfind : findSuffix s buf with
    | none => simp [drainLoop, hfind]
    | some i =>
      have hle := findSuffix_len s hs buf i hfind
      have hpos : 0 < s.length := List.length_pos.mpr hs
      have hrest : (buf.drop (i + s.length)).length < buf.length := by
        rw [List.length_drop]
        omega
      have hbuf : 0 < buf.length := by omega
      simp only [drainLoop, hfind]
      rw [ih (buf.drop (i + s.length)).length (by omega) _ g1 g2 (Nat.le_refl _)
        (by omega) (by omega)]

theorem drainFrames_some (s : List Nat) (hs : s ≠ []) (buf : List Nat) (i : Nat)
    (h : findSuffix s buf = some i) :
    drainFrames s buf =
      (buf.take i :: (drainFrames s (buf.drop (i + s.length))).1,
       (drainFrames s (buf.drop (i + s.length))).2) := by
  have hle := findSuffix_len s hs buf i h
  have hpos : 0 < s.length := List.length_pos.mpr hs
  have hrest : (buf.drop (i + s.length)).length < buf.length := by
    rw [List.length_drop]
    omega
  have h1 : drainFrames s buf =
      (buf.take i :: (drainLoop s buf.length (buf.drop (i + s.length))).1,
       (drainLoop s buf.length (buf.drop (i + s.length))).2) := by
    rw [drainFrames]
    simp only [drainLoop, h]
  rw [h1,
    show drainFrames s (buf.drop (i + s.length)) =
      drainLoop s ((buf.drop (i + s.length)).length + 1) (buf.drop (i + s.length)) from rfl,
    drainLoop_fuel s hs (buf.drop (i + s.length)).length (buf.drop (i + s.length))
      buf.length ((buf.drop (i + s.length)).length + 1) (Nat.le_refl _) (by omega) (by omega)]

theorem drainFrames_none (s : List Nat) (buf : List Nat)
    (h : findSuffix s buf = none) : drainFrames s buf = ([], buf) := by
  unfold drainFrames
  simp [drainLoop, h]

theorem drainLoop_reconstruct (s : List Nat) :
    ∀ (fuel : Nat) (buf : List Nat),
      joinFrames (drainLoop s fuel buf).1 s ++ (drainLoop s fuel buf).2 = buf := by
  intro fuel
  induction fuel with
  | zero => intro buf; simp [drainLoop, joinFrames]
  | succ g ih =>
    intro buf
    cases hfind : findSuffix s buf with
    | none => simp [drainLoop, hfind, joinFrames]
    | some i =>
      simp only [drainLoop, hfind, joinFrames, List.map_cons, List.flatten_cons]
      rw [List.append_assoc]
      have := ih (buf.drop (i + s.length))
      rw [joinFrames] at this
      rw [this]
      exact (findSuffix_decompose s buf i hfind).symm.trans (by simp [List.append_assoc])

theorem drainFrames_reconstruct (s : List Nat) (buf : List Nat) :
    joinFrames (drainFrames s buf).1 s ++ (drainFrames s buf).2 = buf :=
  drainLoop_reconstruct s (buf.length + 1) buf

theorem drainFrames_rest_none (s : List Nat) (hs : s ≠ []) :
    ∀ (n : Nat) (buf : List Nat), buf.length ≤ n →
      findSuffix s (drainFrames s buf).2 = none := by
  intro n
  induction n using Nat.strong_induction_on with
  | _ n ih =>
    intro buf hlen
    cases hfind : findSuffix s buf with
    | none => rw [drainFrames_none s buf hfind]; exact hfind
    | some i =>
      have hle := findSuffix_len s hs buf i hfind
      have hpos : 0 < s.length := List.length_pos.mpr hs
      have hrest : (buf.drop (i + s.length)).length < buf.length := by
        rw [List.length_drop]
        omega
      rw [drainFrames_some s hs buf i hfind]
      exact ih (buf.drop (i + s.length)).length (by omega) _ (Nat.le_refl _)

theorem drainFrames_frames_clean (s : List Nat) (hs : s ≠ []) :
    ∀ (n : Nat) (buf : List Nat), buf.length ≤ n →
      ∀ f ∈ (drainFrames s buf).1, findSuffix s f = none := by
  intro n
  induction n using Nat.strong_induction_on with
  | _ n ih =>
    intro buf hlen f hf
    cases hfind : findSuffix s buf with
    | none => rw [drainFrames_none s buf hfind] at hf; simp at hf
    | some i =>
      have hle := findSuffix_len s hs buf i hfind
      have hpos : 0 < s.length := List.length_pos.mpr hs
      have hrest : (buf.drop (i + s.length)).length < buf.length := by
        rw [List.length_drop]
        omega
      rw [drainFrames_some s hs buf i hfind] at hf
      simp only [List.mem_cons] at hf
      cases hf with
      | inr hmem => exact ih (buf.drop (i + s.length)).length (by omega) _ (Nat.le_refl _) f hmem
      | inl heq =>
        subst heq
        rw [findSuffix_none_iff s hs]
        intro j hpre
        have hij : i ≤ buf.length := by omega
        rw [List.drop_take] at hpre
        have hple : s <+: buf.drop j := hpre.trans ( List.take_prefix _ _)
        have hlenp := hpre.length_le
        rw [List.length_take, List.length_drop] at hlenp
        have hji : j < i := by
          rcases Nat.lt_or_ge j i with hlt | hge
          · exact hlt
          · exfalso
            have : min (i - j) (buf.length - j) = 0 ∨ i - j = 0 := by omega
            omega
        exact findSuffix_min s buf i hfind j hji hple

theorem drainFrames_append (s : List Nat) (hs : s ≠ []) :
    ∀ (n : Nat) (b1 b2 : List Nat), b1.length ≤ n →
      drainFrames s (b1 ++ b2)
        = ((drainFrames s b1).1 ++ (drainFrames s ((drainFrames s b1).2 ++ b2)).1,
           (drainFrames s ((drainFrames s b1).2 ++ b2)).2) := by
  intro n
  induction n using Nat.strong_induction_on with
  | _ n ih =>
    intro b1 b2 hlen
    cases hfind : findSuffix s b1 with
    | none =>
      rw [drainFrames_none s b1 hfind]
      simp
    | some i =>
      have hle := findSuffix_len s hs b1 i hfind
      have hpos : 0 < s.length := List.length_pos.mpr hs
      have hrest : (b1.drop (i + s.length)).length < b1.length := by
        rw [List.length_drop]
        omega
      have hfind2 : findSuffix s (b1 ++ b2) = some i := findSuffix_append s hs b1 b2 i hfind
      have htake : (b1 ++ b2).take i = b1.take i := by
        rw [List.take_append_eq_append_take, Nat.sub_eq_zero_of_le (by omega), List.take_zero,
          List.append_nil]
      have hdrop : (b1 ++ b2).drop (i + s.length) = b1.drop (i + s.length) ++ b2 := by
        rw [List.drop_append_eq_append_drop, Nat.sub_eq_zero_of_le (by omega), List.drop_zero]
      rw [drainFrames_some s hs (b1 ++ b2) i hfind2, htake, hdrop,
        drainFrames_some s hs b1 i hfind,
        ih (b1.drop (i + s.length)).length (by omega) (b1.drop (i + s.length)) b2 (Nat.le_refl _)]
      simp

theorem processChunks_eq_join (s : List Nat) (hs : s ≠ []) :
    ∀ (chunks : List (List Nat)) (carry : List Nat), findSuffix s carry = none →
      processChunks s carry chunks = drainFrames s (carry ++ chunks.flatten) := by
  intro chunks
  induction chunks with
  | nil =>
    intro carry hc
    simp only [processChunks, List.flatten_nil, List.append_nil]
    rw [drainFrames_none s carry hc]
  | cons c cs ih =>
    intro carry hc
    simp only [processChunks, List.flatten_cons]
    rw [ih (drainFrames s (carry ++ c)).2
      (drainFrames_rest_none s hs (carry ++ c).length (carry ++ c) (Nat.le_refl _))]
    rw [← List.append_assoc]
    rw [drainFrames_append s hs (carry ++ c).length (carry ++ c) cs.flatten (Nat.le_refl _)]

theorem drainFrames_double_suffix (s : List Nat) (hs : s ≠ []) :
    drainFrames s (s ++ s) = ([[], []], []) := by
  have h0 : findSuffix s (s ++ s) = some 0 :=
    findSuffix_zero s hs (s ++ s) ( List.prefix_append s s)
  have hdrop0 : (s ++ s).drop (0 + s.length) = s := by
    simp [List.drop_left]
  have h1 : findSuffix s s = some 0 := findSuffix_zero s hs s List.prefix_rfl
  have hdrop1 : s.drop (0 + s.length) = ([] : List Nat) := by
    simp
  rw [drainFrames_some s hs (s ++ s) 0 h0, hdrop0,
    drainFrames_some s hs s 0 h1, hdrop1,
    drainFrames_none s [] (findSuffix_nil s)]
  simp

/-! ## Helper lemmas about `drainFramesH` and `readerRun` -/

theorem drainFramesH_stop (ok : List Nat → Bool) (s : List Nat) (buf : List Nat) (i : Nat)
    (hfind : findSuffix s buf = some i) (hok : ok (buf.take i) = false) :
    drainFramesH ok s buf = ([buf.take i], buf.drop (i + s.length), true) := by
  rw [drainFramesH]
  simp only [drainLoopH, hfind, hok]
  simp

theorem drainLoopH_allok (ok : List Nat → Bool) (s : List Nat)
    (hok : ∀ f, ok f = true) :
    ∀ (fuel : Nat) (buf : List Nat),
      drainLoopH ok s fuel buf = ((drainLoop s fuel buf).1, (drainLoop s fuel buf).2, false) := by
  intro fuel
  induction fuel with
  | zero => intro buf; simp [drainLoopH, drainLoop]
  | succ g ih =>
    intro buf
    cases hfind : findSuffix s buf with
    | none => simp [drainLoopH, drainLoop, hfind]
    | some i =>
      simp only [drainLoopH, drainLoop, hfind, hok (buf.take i), if_pos]
      rw [ih]

theorem drainLoopH_reconstruct (ok : List Nat → Bool) (s : List Nat) :
    ∀ (fuel : Nat) (buf : List Nat),
      joinFrames (drainLoopH ok s fuel buf).1 s ++ (drainLoopH ok s fuel buf).2.1 = buf := by
  intro fuel
  induction fuel with
  | zero => intro buf; simp [drainLoopH, joinFrames]
  | succ g ih =>
    intro buf
    cases hfind : findSuffix s buf with
    | none => simp [drainLoopH, hfind, joinFrames]
    | some i =>
      by_cases hok : ok (buf.take i) = true
      · simp only [drainLoopH, hfind, hok, if_pos, joinFrames, List.map_cons, List.flatten_cons]
        rw [List.append_assoc]
        have := ih (buf.drop (i + s.length))
        rw [joinFrames] at this
        rw [this]
        exact (findSuffix_decompose s buf i hfind).symm.trans (by simp [List.append_assoc])
      · rw [Bool.not_eq_true] at hok
        simp only [drainLoopH, hfind, hok, Bool.false_eq_true, if_false, joinFrames,
          List.map_cons, List.map_nil, List.flatten_cons, List.flatten_nil, List.append_nil]
        exact (findSuffix_decompose s buf i hfind).symm.trans (by simp [List.append_assoc])

theorem readerRun_term_iff (ok : List Nat → Bool) (s : List Nat) :
    ∀ (sched : List ReadEv) (buf : List Nat),
      (readerRun ok s buf sched).2.2 = sched.any isTermEv := by
  intro sched
  induction sched with
  | nil => intro buf; simp [readerRun]
  | cons e rest ih =>
    intro buf
    cases e with
    | eof => simp [readerRun, isTermEv]
    | rerr => simp [readerRun, isTermEv]
    | chunk c =>
      simp only [readerRun, List.any_cons, isTermEv, Bool.false_or]
      exact ih _

/-! ## Helper lemmas about the controller run -/

theorem getLast?_cons_keep {α : Type} (x : α) {l : List α} {a : α}
    (h : l.getLast? = some a) : (x :: l).getLast? = some a := by
  cases l with
  | nil => simp at h
  | cons y ys => rw [List.getLast?_cons_cons]; exact h

theorem controllerRun_closed_spec (mt : Option Nat) :
    ∀ (ts : List TickObs) (r : Nat),
      ((controllerRun mt r ts).2 = true →
         (controllerRun mt r ts).1.count CtrlEv.storeClosed = 1
         ∧ (controllerRun mt r ts).1.getLast? = some CtrlEv.storeClosed)
      ∧ ((controllerRun mt r ts).2 = false →
         (controllerRun mt r ts).1.count CtrlEv.storeClosed = 0) := by
  intro ts
  induction ts with
  | nil =>
    intro r
    refine ⟨fun h => by simp [controllerRun] at h, fun _ => by simp [controllerRun]⟩
  | cons obs ts ih =>
    intro r
    rcases obs with ⟨d, a, k⟩
    cases d
    · cases a
      · -- (disconnect = false, alive = false): reconnect branch
        cases k
        · -- reconnect fails
          cases mt with
          | none =>
            simp only [controllerRun, Bool.false_eq_true, if_false]
            constructor
            · intro hex
              obtain ⟨hc, hl⟩ := (ih (r + 1)).1 hex
              refine ⟨?_, ?_⟩
              · simp [List.count_cons, hc]
              · exact getLast?_cons_keep _ (getLast?_cons_keep _ hl)
            · intro hex
              have hc := (ih (r + 1)).2 hex
              simp [List.count_cons, hc]
          | some m =>
            by_cases hm : m ≤ r + 1
            · simp only [controllerRun, Bool.false_eq_true, if_false, if_pos hm]
              exact ⟨fun _ => ⟨by decide, by decide⟩, fun h => by simp at h⟩
            · simp only [controllerRun, Bool.false_eq_true, if_false, if_neg hm]
              constructor
              · intro hex
                obtain ⟨hc, hl⟩ := (ih (r + 1)).1 hex
                refine ⟨?_, ?_⟩
                · simp [List.count_cons, hc]
                · exact getLast?_cons_keep _ (getLast?_cons_keep _ hl)
              · intro hex
                have hc := (ih (r + 1)).2 hex
                simp [List.count_cons, hc]
        · -- reconnect succeeds
          simp only [controllerRun, if_pos]
          constructor
          · intro hex
            obtain ⟨hc, hl⟩ := (ih 0).1 hex
            refine ⟨?_, ?_⟩
            · simp [List.count_cons, hc]
            · exact getLast?_cons_keep _ (getLast?_cons_keep _ (getLast?_cons_keep _ hl))
          · intro hex
            have hc := (ih 0).2 hex
            simp [List.count_cons, hc]
      · -- (false, true): no-op tick
        simpa only [controllerRun] using ih r
    · cases a
      · -- (true, false): cleanup shutdown, continue
        simp only [controllerRun]
        constructor
        · intro hex
          obtain ⟨hc, hl⟩ := (ih r).1 hex
          refine ⟨?_, ?_⟩
          · simp [List.count_cons, hc]
          · exact getLast?_cons_keep _ hl
        · intro hex
          have hc := (ih r).2 hex
          simp [List.count_cons, hc]
      · -- (true, true): shutdown, post_disconnection, break
        simp only [controllerRun]
        exact ⟨fun _ => ⟨by decide, by decide⟩, fun h => by simp at h⟩

theorem controllerRun_fail_break (m r : Nat) (ts : List TickObs) (hm : m ≤ r + 1) :
    controllerRun (some m) r (failObs :: ts)
      = ([CtrlEv.storeReconnecting, CtrlEv.storeClosed], true) := by
  simp [controllerRun, failObs, hm]

theorem controllerRun_fail_cont (m r : Nat) (ts : List TickObs) (hm : r + 1 < m) :
    controllerRun (some m) r (failObs :: ts)
      = (CtrlEv.storeReconnecting :: CtrlEv.sleepRetry :: (controllerRun (some m) (r + 1) ts).1,
         (controllerRun (some m) (r + 1) ts).2) := by
  have h : ¬ m ≤ r + 1 := by omega
  simp [controllerRun, failObs, h]

theorem controllerRun_fail_cont_none (r : Nat) (ts : List TickObs) :
    controllerRun none r (failObs :: ts)
      = (CtrlEv.storeReconnecting :: CtrlEv.sleepRetry :: (controllerRun none (r + 1) ts).1,
         (controllerRun none (r + 1) ts).2) := by
  simp [controllerRun, failObs]

theorem controllerRun_succ_tick (mt : Option Nat) (r : Nat) (ts : List TickObs) :
    controllerRun mt r (succObs :: ts)
      = (CtrlEv.storeReconnecting :: CtrlEv.storeActive :: CtrlEv.cbReconnection
           :: (controllerRun mt 0 ts).1,
         (controllerRun mt 0 ts).2) := by
  simp [controllerRun, succObs]

theorem controllerRun_dead_tick (mt : Option Nat) (r : Nat) (ts : List TickObs) :
    controllerRun mt r (deadObs :: ts)
      = (CtrlEv.shutdownCleanup :: (controllerRun mt r ts).1,
         (controllerRun mt r ts).2) := by
  simp [controllerRun, deadObs]

theorem controllerRun_fail_exhaust :
    ∀ (k r : Nat),
      (controllerRun (some (r + k + 1)) r (List.replicate (k + 1) failObs)).2 = true
      ∧ (controllerRun (some (r + k + 1)) r (List.replicate (k + 1) failObs)).1.getLast?
          = some CtrlEv.storeClosed := by
  intro k
  induction k with
  | zero =>
    intro r
    rw [List.replicate_one, controllerRun_fail_break (r + 0 + 1) r [] (by omega)]
    exact ⟨rfl, rfl⟩
  | succ k ih =>
    intro r
    rw [List.replicate_succ, controllerRun_fail_cont (r + (k + 1) + 1) r _ (by omega)]
    have h := ih (r + 1)
    rw [show r + 1 + k + 1 = r + (k + 1) + 1 by omega] at h
    exact ⟨h.1, getLast?_cons_keep _ (getLast?_cons_keep _ h.2)⟩

/-! ## Claim theorems -/

/-- C1: the claim states that after a successful `reconnect()` the facade's
writer-handle clone observes the new underlying writer because the controller
replaces the contents of the shared mutex-guarded cell rather than the shared
wrapper.  The code does the opposite: `reconnect` allocates a *fresh*
`Arc<Mutex<_>>` and rebinds only the inner session's field, so after a
`connect` (connection 7) followed by a successful reconnect (connection 9)
`send_bytes` — which locks the facade's clone — still writes to connection 7
while the inner session's writer holds connection 9. -/
theorem c1_reconnect_writer_not_shared :
    sendTargetConn (reconnectSwap (connectWriters 7) 9) = 7
    ∧ innerTargetConn (reconnectSwap (connectWriters 7) 9) = 9
    ∧ sendTargetConn (reconnectSwap (connectWriters 7) 9)
        ≠ innerTargetConn (reconnectSwap (connectWriters 7) 9)
    ∧ (reconnectSwap (connectWriters 7) 9).facadeWriter
        ≠ (reconnectSwap (connectWriters 7) 9).innerWriter := by
  refine ⟨rfl, rfl, by decide, by decide⟩

/-- C2: the claim states that once `close()` has set the disconnect flag the
controller loop exits and the state becomes `CLOSED` within 5.01 s, in
particular in the case (disconnect = true, alive = false).  In the code that
arm only re-runs `shutdown` and continues; with the disconnect flag set the
reader task is never replaced, so the observation repeats forever: for every
number `n` of ticks the run has emitted only cleanup shutdowns, has not
exited, and has never stored `CLOSED`. -/
theorem c2_disconnect_dead_reader_never_closes (mt : Option Nat) (r n : Nat) :
    controllerRun mt r (List.replicate n deadObs)
      = (List.replicate n CtrlEv.shutdownCleanup, false) := by
  induction n generalizing r with
  | zero => rfl
  | succ n ih =>
    rw [List.replicate_succ, controllerRun_dead_tick, ih r, List.replicate_succ]

/-- C3 (counterexample): the claim states that if the controller task is
still alive after the 5 s timeout, `close()` forcibly aborts it.  In the run
where `is_closed()` is false at every poll and the controller task is not
finished, the code reaches the timeout without ever executing the abort:
`aborted = false`. -/
theorem c3_counterexample_no_abort_on_timeout :
    (closeRun (fun _ => false) false).timedOut = true
    ∧ (closeRun (fun _ => false) false).aborted = false := by
  have hnone : (List.range closeMaxPolls).find? (fun _ => false) = none := by
    rw [List.find?_eq_none]
    intro x _
    simp
  simp [closeRun, hnone]

/-- C3 (amended): `close()` sets the disconnect flag and waits up to 5 s for
state `CLOSED` polling every 10 ms; if `CLOSED` is observed within the window
the controller task is aborted when it has not yet finished; if the window
expires without `CLOSED`, no abort is performed (only an error is logged).
A second `close()` is idempotent: the flag stays set and the connection
state is untouched. -/
theorem c3_close_behavior (closedAt : Nat → Bool) (cf : Bool) (f : ClientFlags) :
    (closeRun closedAt cf).disconnectStored = true
    ∧ ((∃ k, k < closeMaxPolls ∧ closedAt k = true) →
        (closeRun closedAt cf).aborted = !cf ∧ (closeRun closedAt cf).timedOut = false)
    ∧ ((∀ k, k < closeMaxPolls → closedAt k = false) →
        (closeRun closedAt cf).aborted = false ∧ (closeRun closedAt cf).timedOut = true)
    ∧ closeEffect (closeEffect f) = closeEffect f
    ∧ (closeEffect f).connectionState = f.connectionState := by
  refine ⟨?_, ?_, ?_, rfl, rfl⟩
  · cases hf : (List.range closeMaxPolls).find? closedAt with
    | none => simp [closeRun, hf]
    | some v => simp [closeRun, hf]
  · rintro ⟨k, hk, hck⟩
    have hsome : ((List.range closeMaxPolls).find? closedAt).isSome := by
      rw [List.find?_isSome]
      exact ⟨k, List.mem_range.mpr hk, hck⟩
    obtain ⟨v, hv⟩ := Option.isSome_iff_exists.mp hsome
    simp [closeRun, hv]
  · intro hall
    have hnone : (List.range closeMaxPolls).find? closedAt = none := by
      rw [List.find?_eq_none]
      intro x hx
      simp [hall x (List.mem_range.mp hx)]
    simp [closeRun, hnone]

/-- C3 (witness): when `is_closed()` is already true at the first poll and
the controller task is not finished, `close` does abort it within the
window. -/
theorem c3_close_behavior_witness :
    (closeRun (fun _ => true) false).aborted = true
    ∧ (closeRun (fun _ => true) false).timedOut = false := by
  have h := (c3_close_behavior (fun _ => true) false ⟨false, 0⟩).2.1
    ⟨0, by decide, rfl⟩
  exact ⟨h.1, h.2⟩

/-- C4: `send_bytes` gating.  If `is_closed()` holds the call returns
`NotConnected` with no write performed; otherwise if `is_active()` stays
false for the whole 2 s / 1 ms polling window the call returns `TimedOut`
with no write performed; otherwise the payload is written followed by the
suffix, any I/O error is propagated — including a suffix-write failure after
a successful payload write, in which case both writes were performed. -/
theorem c4_send_gating (env : SendEnv) (data suffix : List Nat) :
    (env.closed = true → send_bytes env data suffix = (SendOutcome.errNotConnected, []))
    ∧ (env.closed = false → (∀ k, k ≤ sendMaxPolls → env.activeAt k = false) →
        send_bytes env data suffix = (SendOutcome.errTimedOut, []))
    ∧ (env.closed = false → (∃ k, k ≤ sendMaxPolls ∧ env.activeAt k = true) →
        send_bytes env data suffix = writePhase env data suffix)
    ∧ (∀ e, env.dataRes = some e → writePhase env data suffix = (SendOutcome.errIo e, [data]))
    ∧ (∀ e, env.dataRes = none → env.suffixRes = some e →
        writePhase env data suffix = (SendOutcome.errIo e, [data, suffix]))
    ∧ (env.dataRes = none → env.suffixRes = none →
        writePhase env data suffix = (SendOutcome.ok, [data, suffix])) := by
  refine ⟨?_, ?_, ?_, ?_, ?_, ?_⟩
  · intro hc
    simp [send_bytes, hc]
  · intro hc hall
    have hnone : (List.range (sendMaxPolls + 1)).find? env.activeAt = none := by
      rw [List.find?_eq_none]
      intro x hx
      simp [hall x (Nat.lt_succ_iff.mp (List.mem_range.mp hx))]
    simp [send_bytes, hc, hnone]
  · rintro hc ⟨k, hk, hak⟩
    have hsome : ((List.range (sendMaxPolls + 1)).find? env.activeAt).isSome := by
      rw [List.find?_isSome]
      exact ⟨k, List.mem_range.mpr (Nat.lt_succ_iff.mpr hk), hak⟩
    obtain ⟨v, hv⟩ := Option.isSome_iff_exists.mp hsome
    simp [send_bytes, hc, hv]
  · intro e he
    simp [writePhase, he]
  · intro e hd he
    simp [writePhase, hd, he]
  · intro hd he
    simp [writePhase, hd, he]

/-- C4 (witness): the three gating outcomes at concrete environments, and a
suffix-write failure after a successful payload write propagating as an
error with both writes performed. -/
theorem c4_send_gating_witness :
    send_bytes ⟨true, fun _ => true, none, none⟩ [1] [2] = (SendOutcome.errNotConnected, [])
    ∧ send_bytes ⟨false, fun _ => false, none, none⟩ [1] [2] = (SendOutcome.errTimedOut, [])
    ∧ send_bytes ⟨false, fun _ => true, none, some 5⟩ [1] [2] = (SendOutcome.errIo 5, [[1], [2]]) := by
  refine ⟨(c4_send_gating ⟨true, fun _ => true, none, none⟩ [1] [2]).1 rfl,
    (c4_send_gating ⟨false, fun _ => false, none, none⟩ [1] [2]).2.1 rfl (fun k _ => rfl), ?_⟩
  have h := c4_send_gating ⟨false, fun _ => true, none, some 5⟩ [1] [2]
  rw [h.2.2.1 rfl ⟨0, Nat.zero_le _, rfl⟩]
  exact h.2.2.2.2.1 5 rfl rfl

/-- C5: frame draining.  For every non-empty suffix `s`:
each drained batch decomposes the buffer into the delivered frames (each of
which was followed on the wire by `s` and none of which contains `s`, so the
earliest occurrence is split off each time and the handler receives the frame
with the suffix stripped, in byte-stream order) followed by a remainder in
which `s` does not occur; processing a chunked byte stream with the buffer
carried across reads yields exactly the frames of the concatenated stream,
so occurrences spanning a chunk boundary are detected; and two consecutive
suffixes produce two empty frames which are still delivered. -/
theorem c5_frame_draining (s : List Nat) (hs : s ≠ []) :
    (∀ buf : List Nat,
        joinFrames (drainFrames s buf).1 s ++ (drainFrames s buf).2 = buf
        ∧ findSuffix s (drainFrames s buf).2 = none
        ∧ ∀ f ∈ (drainFrames s buf).1, findSuffix s f = none)
    ∧ (∀ chunks : List (List Nat), processChunks s [] chunks = drainFrames s chunks.flatten)
    ∧ drainFrames s (s ++ s) = ([[], []], []) := by
  refine ⟨fun buf => ⟨drainFrames_reconstruct s buf,
      drainFrames_rest_none s hs buf.length buf (Nat.le_refl _),
      fun f hf => drainFrames_frames_clean s hs buf.length buf (Nat.le_refl _) f hf⟩,
    fun chunks => ?_, drainFrames_double_suffix s hs⟩
  have h := processChunks_eq_join s hs chunks [] (findSuffix_nil s)
  simpa using h

/-- C5 (witness): with suffix `\r\n = [13, 10]`, a frame whose delimiter
spans the boundary between two reads is still detected and delivered. -/
theorem c5_frame_draining_witness :
    processChunks [13, 10] [] [[104, 105, 13], [10, 119]]
      = drainFrames [13, 10] [104, 105, 13, 10, 119]
    ∧ drainFrames [13, 10] [104, 105, 13, 10, 119] = ([[104, 105]], [119]) := by
  constructor
  · have h := (c5_frame_draining [13, 10] (by decide)).2.1 [[104, 105, 13], [10, 119]]
    simpa using h
  · decide

/-- C6: handler-error policy.  When a handler invocation fails on the first
frame of a batch, the inner loop is broken with exactly that frame delivered,
the frame (and its suffix) already removed from the buffer front and the
remaining bytes preserved; every batch — with or without errors — decomposes
the buffer into delivered frames plus the preserved remainder; the reader
task terminates exactly when a read returns `Ok(0)` or an error, never
because of a handler error; after a chunk (whatever the handler outcome) the
reader continues with the next outer iteration on the preserved buffer; and
with an error-free handler the batch agrees with the plain drain. -/
theorem c6_handler_error_policy (ok : List Nat → Bool) (s : List Nat) (hs : s ≠ []) :
    (∀ buf i, findSuffix s buf = some i → ok (buf.take i) = false →
        drainFramesH ok s buf = ([buf.take i], buf.drop (i + s.length), true))
    ∧ (∀ buf, joinFrames (drainFramesH ok s buf).1 s ++ (drainFramesH ok s buf).2.1 = buf)
    ∧ (∀ sched buf, (readerRun ok s buf sched).2.2 = sched.any isTermEv)
    ∧ (∀ buf c rest, readerRun ok s buf (ReadEv.chunk c :: rest)
        = ((drainFramesH ok s (buf ++ c)).1
             ++ (readerRun ok s (drainFramesH ok s (buf ++ c)).2.1 rest).1,
           (readerRun ok s (drainFramesH ok s (buf ++ c)).2.1 rest).2))
    ∧ ((∀ f, ok f = true) →
        ∀ buf, drainFramesH ok s buf = ((drainFrames s buf).1, (drainFrames s buf).2, false)) := by
  refine ⟨fun buf i hf hok => drainFramesH_stop ok s buf i hf hok,
    fun buf => drainLoopH_reconstruct ok s (buf.length + 1) buf,
    fun sched buf => readerRun_term_iff ok s sched buf,
    fun buf c rest => rfl,
    fun hok buf => ?_⟩
  rw [drainFramesH, drainLoopH_allok ok s hok (buf.length + 1) buf]
  rfl

/-- C6 (witness): a handler that always fails: the erroring frame `[1]` is
removed, the rest `[2]` is preserved, and a schedule of two data chunks
leaves the reader task running. -/
theorem c6_handler_error_policy_witness :
    drainFramesH (fun _ => false) [13, 10] [1, 13, 10, 2] = ([[1]], [2], true)
    ∧ (readerRun (fun _ => false) [13, 10] []
        [ReadEv.chunk [1, 13, 10, 2], ReadEv.chunk [3]]).2.2 = false := by
  constructor
  · have h := (c6_handler_error_policy (fun _ => false) [13, 10] (by decide)).1
      [1, 13, 10, 2] 1 (by decide) rfl
    simpa using h
  · have h := (c6_handler_error_policy (fun _ => false) [13, 10] (by decide)).2.2.1
      [ReadEv.chunk [1, 13, 10, 2], ReadEv.chunk [3]] []
    simpa using h

/-- C7: the controller's reconnect branch.  A failed attempt with the
incremented counter at the cap breaks the loop (after which `CLOSED` is
stored); below the cap it sleeps `RETRY_INTERVAL` and retries with the
counter incremented; with no cap configured it always sleeps and retries;
a successful reconnect stores `RECONNECTING` then `ACTIVE`, resets the
counter to 0 and invokes the `post_reconnection` callback; and from counter
`r < m`, `m - r` consecutive failures drive the run to exit with `CLOSED`
as its final store. -/
theorem c7_retry_accounting (m r : Nat) (ts : List TickObs) :
    (m ≤ r + 1 → controllerRun (some m) r (failObs :: ts)
        = ([CtrlEv.storeReconnecting, CtrlEv.storeClosed], true))
    ∧ (r + 1 < m → controllerRun (some m) r (failObs :: ts)
        = (CtrlEv.storeReconnecting :: CtrlEv.sleepRetry
             :: (controllerRun (some m) (r + 1) ts).1,
           (controllerRun (some m) (r + 1) ts).2))
    ∧ controllerRun none r (failObs :: ts)
        = (CtrlEv.storeReconnecting :: CtrlEv.sleepRetry
             :: (controllerRun none (r + 1) ts).1,
           (controllerRun none (r + 1) ts).2)
    ∧ controllerRun (some m) r (succObs :: ts)
        = (CtrlEv.storeReconnecting :: CtrlEv.storeActive :: CtrlEv.cbReconnection
             :: (controllerRun (some m) 0 ts).1,
           (controllerRun (some m) 0 ts).2)
    ∧ (r < m → (controllerRun (some m) r (List.replicate (m - r) failObs)).2 = true
        ∧ (controllerRun (some m) r (List.replicate (m - r) failObs)).1.getLast?
            = some CtrlEv.storeClosed) := by
  refine ⟨controllerRun_fail_break m r ts, controllerRun_fail_cont m r ts,
    controllerRun_fail_cont_none r ts, controllerRun_succ_tick (some m) r ts, ?_⟩
  intro hrm
  obtain ⟨k, rfl⟩ : ∃ k, m = r + k + 1 := ⟨m - r - 1, by omega⟩
  rw [show r + k + 1 - r = k + 1 by omega]
  exact controllerRun_fail_exhaust k r

/-- C7 (witness): with `max_reconnection_tries = 2` and two consecutive
failures the run exits; with the cap already reached the single failure
stores `RECONNECTING` then `CLOSED`. -/
theorem c7_retry_accounting_witness :
    (controllerRun (some 2) 0 (List.replicate 2 failObs)).2 = true
    ∧ controllerRun (some 1) 0 [failObs]
        = ([CtrlEv.storeReconnecting, CtrlEv.storeClosed], true) := by
  constructor
  · have h := (c7_retry_accounting 2 0 []).2.2.2.2 (by decide)
    simpa using h.1
  · exact (c7_retry_accounting 1 0 []).1 (by decide)

/-- C8 (counterexample): the claim states that a successful `reconnect()`
stores `ACTIVE` before releasing the reconnection mutex.  In the source the
guard is dropped at step 8 and `ACTIVE` is stored at step 9, so the point
after 8 steps is reachable with the mutex already released while the state
is still `RECONNECTING`. -/
theorem c8_counterexample_release_before_active :
    reconnectSuccessTrace[7]? = some RecEv.lockReleased
    ∧ reconnectSuccessTrace[8]? = some RecEv.storeActive
    ∧ recPointAt 8 = { mutexHeld := false, connState := CONNECTION_RECONNECTING } := by
  decide

/-- C8 (amended): a successful `reconnect()` releases the reconnection mutex
(`drop(state_guard)`) immediately before storing `ACTIVE`; consequently there
is exactly one reachable step — between the guard drop and the `ACTIVE`
store — at which the mutex is released while the connection state is still
`RECONNECTING`. -/
theorem c8_release_then_store_active :
    ∀ k : Nat,
      recPointAt k = { mutexHeld := false, connState := CONNECTION_RECONNECTING } ↔ k = 8 := by
  intro k
  rcases Nat.lt_or_ge k 9 with h | h
  · interval_cases k <;> decide
  · have hL : reconnectSuccessTrace.length = 9 := by decide
    have he : recPointAt k = recPointAt 9 := by
      unfold recPointAt
      rw [List.take_of_length_le (by omega), List.take_of_length_le (by omega)]
    rw [he]
    constructor
    · intro hx
      exact absurd hx (by decide)
    · intro hk
      omega

/-- C9: terminal `CLOSED` and its single writer.  In every controller run a
`CLOSED` store happens exactly when the loop exits, exactly once, and as the
very last event — so no `ACTIVE` or `RECONNECTING` store (both of which are
emitted only by the controller's reconnect branch) ever follows it; and
`close()` writes only the disconnect flag, leaving the connection state
untouched. -/
theorem c9_closed_terminal_single_writer (mt : Option Nat) (r : Nat) (ts : List TickObs)
    (f : ClientFlags) :
    ((controllerRun mt r ts).2 = true →
        (controllerRun mt r ts).1.count CtrlEv.storeClosed = 1
        ∧ (controllerRun mt r ts).1.getLast? = some CtrlEv.storeClosed)
    ∧ ((controllerRun mt r ts).2 = false →
        (controllerRun mt r ts).1.count CtrlEv.storeClosed = 0)
    ∧ (closeEffect f).connectionState = f.connectionState :=
  ⟨(controllerRun_closed_spec mt ts r).1, (controllerRun_closed_spec mt ts r).2, rfl⟩

/-- C9 (witness): a user disconnect with a live reader: the run exits with a
single, final `CLOSED` store. -/
theorem c9_closed_terminal_single_writer_witness :
    (controllerRun none 0 [⟨true, true, false⟩]).1.count CtrlEv.storeClosed = 1
    ∧ (controllerRun none 0 [⟨true, true, false⟩]).1.getLast? = some CtrlEv.storeClosed :=
  (c9_closed_terminal_single_writer none 0 [⟨true, true, false⟩] ⟨false, 0⟩).1 (by decide)

/-- C10: construction performs no validation of the suffix: `connect_url`
succeeds for every configuration whenever the transport connects — in
particular for an empty suffix, which is passed unchanged to the read task —
and the read task's first data read then evaluates `buf.windows(0)`, which
panics; with any non-empty suffix the same step never panics. -/
theorem c10_empty_suffix_panic :
    (∀ cfg : SocketConfig, (connect_url cfg true).isSome = true)
    ∧ connect_url cfgEmptySuffix true
        = some { suffix := [], connectionState := CONNECTION_ACTIVE,
                 heartbeatSpawned := false, reconnectTimeoutSecs := 30 }
    ∧ (∀ buf chunk : List Nat, chunk ≠ [] → readDataStep [] buf chunk = none)
    ∧ (∀ suffix buf chunk : List Nat, suffix ≠ [] →
        (readDataStep suffix buf chunk).isSome = true) := by
  refine ⟨fun cfg => rfl, rfl, fun buf chunk _ => rfl, fun suffix buf chunk hsuf => ?_⟩
  have h : suffix.length ≠ 0 := fun hlen => hsuf (List.length_eq_zero.mp hlen)
  simp [readDataStep, windowsRs, h]

/-- C10 (witness): an empty-suffix client connects, and its reader panics on
the first data read. -/
theorem c10_empty_suffix_panic_witness :
    (connect_url cfgEmptySuffix true).isSome = true
    ∧ readDataStep [] [] [7] = none :=
  ⟨c10_empty_suffix_panic.1 cfgEmptySuffix, c10_empty_suffix_panic.2.2.1 [] [7] (by decide)⟩
